import Mathlib

/-!
Shallow embedding of the batched page-classification-and-extraction
pipeline of the ocr-testing repository, centred on
`src/extract_na_docs_from_pdf.py` and its variants
(`tesseract_extract_na_docs_pdf.py`, `deepseek_extract_content_from_scanned.py`,
`gpt-4o-extract_na_docs.py`).

Pages are modelled as elements of an arbitrary type `α` (their content is
opaque to the pipeline); page numbers are `Int` (Python integers);
a batch result is the value of the `try`-block surrounding the backend
call, `Except String` standing for the raised exception.
-/

/-- A JSON scalar as it can appear in the `page` field of a match entry
returned by the backend: the backend is untrusted, so the value may be an
integer or any other JSON value (modelled as a string). -/
inductive JVal where
  | int : Int → JVal
  | str : String → JVal
deriving DecidableEq, Repr

/-- One entry of the `matches` list of the backend's JSON result.  Each field
is `Option`al because the backend may omit it; the pipeline accesses the
fields `m['page']`, `m['country_detected']` and `m['doc_type']`
(`extract_na_docs_from_pdf.py` line 79, `tesseract_extract_na_docs_pdf.py`
line 79, `deepseek_extract_content_from_scanned.py` line 114). -/
structure MatchEntry where
  page : Option JVal
  country_detected : Option String
  doc_type : Option String
deriving DecidableEq, Repr

/-- Models one iteration of the `for m in matches` loop in `analyze_batch`
(`extract_na_docs_from_pdf.py` lines 78-80): the print statement subscripts
`m['page']`, `m['country_detected']` and `m['doc_type']` (raising `KeyError`
when a key is absent), then `m['page']` is appended unchanged. -/
def logAndTakePage (m : MatchEntry) : Except String JVal := do
  let p ← match m.page with
    | some v => Except.ok v
    | none => Except.error "KeyError: page"
  match m.country_detected with
    | some _ => Except.ok ()
    | none => Except.error "KeyError: country_detected"
  match m.doc_type with
    | some _ => Except.ok ()
    | none => Except.error "KeyError: doc_type"
  return p

/-- The `for m in matches` loop of `analyze_batch` accumulating
`valid_pages` (`extract_na_docs_from_pdf.py` lines 77-82).  The first
exception aborts the loop, discarding the local `valid_pages` list. -/
def collectPages : List MatchEntry → Except String (List JVal)
  | [] => Except.ok []
  | m :: ms => do
    let p ← logAndTakePage m
    let rest ← collectPages ms
    return p :: rest

/-- `analyze_batch(images, start_page_num)` of `extract_na_docs_from_pdf.py`
(lines 25-86), from the backend response on: `raw` is the outcome of the
backend call plus `json.loads` / `.get("matches", [])` (an `Except.error`
models any raised exception).  The whole body is wrapped in
`try ... except Exception: return []`, so any failure yields `[]`.
`start_page_num` is used only in the prompt text and log messages, never to
validate page numbers. -/
def analyze_batch (raw : Except String (List MatchEntry))
    (start_page_num : Int) : List JVal :=
  match raw >>= collectPages with
  | Except.ok l => l
  | Except.error _ => []

/-- `sorted(list(set(identified_pages)))` — the aggregation/finalize step of
`main` (`extract_na_docs_from_pdf.py` line 111,
`tesseract_extract_na_docs_pdf.py` line 115): the ascending sort of the
distinct collected values (`dedup` plays the role of `set`,
`insertionSort` of `sorted`). -/
def finalize (identified_pages : List Int) : List Int :=
  List.insertionSort (· ≤ ·) identified_pages.dedup

/-- The whole-run aggregation of `main` (`extract_na_docs_from_pdf.py`
lines 98-111): `identified_pages` starts empty, each batch's
`analyze_batch` result is `extend`ed onto it, and the final list is
`sorted(list(set(...)))`.  The argument is the list of per-batch verdict
lists, in batch order. -/
def runPipeline (batchVerdicts : List (List Int)) : List Int :=
  finalize batchVerdicts.flatten

/-- The value a batch contributes to `identified_pages`: `analyze_batch`
returns its parsed page list on success and `[]` from its
`except Exception` clause on any failure of the backend call or of result
handling (`extract_na_docs_from_pdf.py` lines 84-86). -/
def batchContribution (raw : Except String (List Int)) : List Int :=
  match raw with
  | Except.ok l => l
  | Except.error _ => []

/-- `main`'s batch loop and finalize, at the level of per-batch raw
outcomes: each batch's `try`-protected result contributes via
`batchContribution`, and the contributions are aggregated
(`extract_na_docs_from_pdf.py` lines 102-111). -/
def runBatches (results : List (Except String (List Int))) : List Int :=
  finalize (results.map batchContribution).flatten

/-- Python's `range(start, stop, step)` as a list: `ValueError` when
`step = 0`, otherwise the arithmetic progression from `start` with the
given stride, stopping before `stop`. -/
def pythonRange (start stop step : Int) : Except String (List Int) :=
  if step = 0 then Except.error "ValueError: range() arg 3 must not be zero"
  else Except.ok ((List.range (if step > 0
      then ((stop - start + step - 1) / step).toNat
      else ((start - stop + (-step) - 1) / (-step)).toNat)).map
    (fun k : Nat => start + step * (k : Int)))

/-- `BATCH_SIZE = 10` (`extract_na_docs_from_pdf.py` line 17). -/
def BATCH_SIZE : Int := 10

/-- The batch loop header of `main`
(`extract_na_docs_from_pdf.py` lines 102-104): for each
`i in range(0, total_pages, batch_size)`, the batch is the slice
`all_images[i : i + batch_size]` and its start page is `i + 1`.
Returns the list of `(start_page, batch_images)` pairs. -/
def makeBatches (all_images : List α) (batch_size : Int) :
    Except String (List (Int × List α)) :=
  Except.map
    (fun idxs => idxs.map
      (fun i => (i + 1, (all_images.drop i.toNat).take batch_size.toNat)))
    (pythonRange 0 all_images.length batch_size)

/-- The extraction/write loop of `main` in `extract_na_docs_from_pdf.py`
(lines 119-121): for each `p_num` in `final_pages`, the source page
`reader.pages[p_num - 1]` is appended iff `1 <= p_num <= total_pages`. -/
def extract_matched_pages [Inhabited α] (src : List α)
    (final_pages : List Int) : List α :=
  final_pages.foldr
    (fun p acc =>
      if 1 ≤ p ∧ p ≤ (src.length : Int)
      then src.getD (p - 1).toNat default :: acc
      else acc) []

/-- Outcome of the tail of `main` (`extract_na_docs_from_pdf.py`
lines 114-128): either an output file containing the given pages was
written, or the explicit no-matches report was printed and no file
written. -/
inductive RunOutcome (α : Type _) where
  | wrote : List α → RunOutcome α
  | noMatches : RunOutcome α
deriving DecidableEq, Repr

/-- `if final_pages: ... writer.write(f) ... else: print("No matching pages
found.")` (`extract_na_docs_from_pdf.py` lines 114-128). -/
def writeOutput [Inhabited α] (src : List α) (final_pages : List Int) :
    RunOutcome α :=
  if final_pages.isEmpty then RunOutcome.noMatches
  else RunOutcome.wrote (extract_matched_pages src final_pages)

/-- Python list subscription `l[i]`: a nonnegative index counts from the
front, a negative index `i` addresses `l[len(l) + i]`, and anything outside
`[-len(l), len(l) - 1]` raises `IndexError`. -/
def pyGetItem (l : List α) (i : Int) : Except String α :=
  if 0 ≤ i then
    match l.get? i.toNat with
    | some a => Except.ok a
    | none => Except.error "IndexError: list index out of range"
  else
    match l.get? (l.length + i).toNat with
    | some a =>
      if 0 ≤ (l.length : Int) + i then Except.ok a
      else Except.error "IndexError: list index out of range"
    | none => Except.error "IndexError: list index out of range"

/-- The unchecked extraction loop of the tesseract and deepseek variants
(`tesseract_extract_na_docs_pdf.py` lines 123-124,
`deepseek_extract_content_from_scanned.py` lines 158-159):
`for p in final_pages: writer.add_page(reader.pages[p - 1])`, with no
bounds test. -/
def tesseract_extract (src : List α) : List Int → Except String (List α)
  | [] => Except.ok []
  | p :: ps => do
    let pg ← pyGetItem src (p - 1)
    let rest ← tesseract_extract src ps
    return pg :: rest

/-! ## Helper lemmas about `finalize` and the extraction loop -/

theorem mem_finalize {l : List Int} {x : Int} : x ∈ finalize l ↔ x ∈ l := by
  unfold finalize
  rw [(List.perm_insertionSort _ _).mem_iff, List.mem_dedup]

theorem finalize_sorted (l : List Int) : List.Sorted (· ≤ ·) (finalize l) :=
  List.sorted_insertionSort _ _

theorem finalize_nodup (l : List Int) : (finalize l).Nodup :=
  (List.perm_insertionSort _ _).nodup_iff.mpr l.nodup_dedup

theorem finalize_sorted_lt (l : List Int) : List.Sorted (· < ·) (finalize l) :=
  (finalize_sorted l).lt_of_le (finalize_nodup l)

theorem finalize_eq_of_mem_iff {l l' : List Int} (h : ∀ x, x ∈ l ↔ x ∈ l') :
    finalize l = finalize l' := by
  apply List.eq_of_perm_of_sorted _ (finalize_sorted l) (finalize_sorted l')
  rw [List.perm_ext_iff_of_nodup (finalize_nodup l) (finalize_nodup l')]
  intro a
  rw [mem_finalize, mem_finalize]
  exact h a

/-- One step of the checked write loop. -/
theorem extract_matched_pages_cons {α : Type _} [Inhabited α]
    (src : List α) (p : Int) (ps : List Int) :
    extract_matched_pages src (p :: ps)
      = if 1 ≤ p ∧ p ≤ (src.length : Int)
        then src.getD (p - 1).toNat default :: extract_matched_pages src ps
        else extract_matched_pages src ps := rfl

theorem extract_matched_pages_filter {α : Type _} [Inhabited α]
    (src : List α) (M : List Int) :
    extract_matched_pages src M
      = extract_matched_pages src
          (M.filter fun p => decide (1 ≤ p ∧ p ≤ (src.length : Int))) := by
  -- the bounds test inside the loop already skips the out-of-range entries
  -- that the filter removes
  induction M with
  | nil => rfl
  | cons p ps ih =>
    by_cases hp : 1 ≤ p ∧ p ≤ (src.length : Int)
    · rw [extract_matched_pages_cons, if_pos hp,
        List.filter_cons_of_pos (by simpa using hp),
        extract_matched_pages_cons, if_pos hp, ih]
    · rw [extract_matched_pages_cons, if_neg hp,
        List.filter_cons_of_neg (by simpa using hp), ih]

/-- On a list of entries whose accessed fields are all present, the
collection loop succeeds and returns every entry's `page` value. -/
theorem collectPages_all_present (ms : List MatchEntry)
    (h : ∀ m ∈ ms, m.page.isSome ∧ m.country_detected.isSome ∧
      m.doc_type.isSome) :
    collectPages ms = Except.ok (ms.map fun m => m.page.getD (JVal.int 0)) := by
  induction ms with
  | nil => rfl
  | cons m ms ih =>
    obtain ⟨hp, hc, hd⟩ := h m (List.mem_cons_self m ms)
    obtain ⟨v, hv⟩ := Option.isSome_iff_exists.mp hp
    obtain ⟨c, hc'⟩ := Option.isSome_iff_exists.mp hc
    obtain ⟨d, hd'⟩ := Option.isSome_iff_exists.mp hd
    have hrest := ih fun m' hm' => h m' (List.mem_cons_of_mem _ hm')
    simp [collectPages, logAndTakePage, hv, hc', hd', hrest, Bind.bind,
      Except.bind, pure, Except.pure]

/-- If some entry of the batch is missing its `page` field, the collection
loop raises and returns no pages at all. -/
theorem collectPages_page_missing (ms : List MatchEntry) (m : MatchEntry)
    (hm : m ∈ ms) (hpage : m.page = none) :
    ∃ e, collectPages ms = Except.error e := by
  induction ms with
  | nil => cases hm
  | cons m' ms ih =>
    rcases List.mem_cons.mp hm with rfl | hm'
    · exact ⟨"KeyError: page", by simp [collectPages, logAndTakePage, hpage,
        Bind.bind, Except.bind]⟩
    · match hlog : logAndTakePage m' with
      | Except.error e =>
        exact ⟨e, by simp [collectPages, hlog, Bind.bind, Except.bind]⟩
      | Except.ok v =>
        obtain ⟨e, he⟩ := ih hm'
        exact ⟨e, by simp [collectPages, hlog, he, Bind.bind, Except.bind]⟩

/-! ## C1 -/

/-- **C1, counterexample.**  The claim says a verdict whose page number lies
outside the batch range `[s, s + L - 1]` is discarded by the verdict parsing
step and never appears in the final MatchSet.  In the code, `analyze_batch`
applies no range check: for a batch starting at page 1 over a 10-page
document (so N = 10 and the batch range is `[1, 10]`), a backend entry
citing page 999 survives parsing, and the aggregation of `main` puts 999
into `final_pages`, the final MatchSet — even though 999 is outside both
the batch range and `[1, 10]`. -/
theorem c1_counterexample :
    analyze_batch (Except.ok
      [⟨some (JVal.int 999), some "USA", some "Passport"⟩]) 1
        = [JVal.int 999]
    ∧ runPipeline [[999]] = [999]
    ∧ ¬ (1 ≤ (999 : Int) ∧ (999 : Int) ≤ 10) := by
  refine ⟨rfl, by decide, by decide⟩

/-- **C1, amended.**  The verdict parsing step of `analyze_batch` applies no
range check: every entry whose three accessed fields are present
contributes its `page` value to the batch output (and hence to the final
MatchSet), whatever that value is.  In `extract_na_docs_from_pdf.py`, pages
outside `[1, N]` are instead excluded only later, by the bounds test inside
the extraction loop, so they never appear in the written output document. -/
theorem c1_amended (ms : List MatchEntry) (s : Int)
    (h : ∀ m ∈ ms, m.page.isSome ∧ m.country_detected.isSome ∧
      m.doc_type.isSome) :
    analyze_batch (Except.ok ms) s = ms.map (fun m => m.page.getD (JVal.int 0))
    ∧ ∀ (α : Type) [Inhabited α] (src : List α) (M : List Int),
        extract_matched_pages src M
          = extract_matched_pages src
              (M.filter fun p => decide (1 ≤ p ∧ p ≤ (src.length : Int))) := by
  constructor
  · unfold analyze_batch
    rw [show (Except.ok ms >>= collectPages) = collectPages ms from rfl,
      collectPages_all_present ms h]
  · intro α _ src M
    exact extract_matched_pages_filter src M

/-- **C1, witness** for `c1_amended` at a concrete out-of-range entry. -/
theorem c1_witness :
    analyze_batch (Except.ok
      [⟨some (JVal.int 999), some "USA", some "Passport"⟩]) 1
        = [JVal.int 999]
    ∧ ∀ (α : Type) [Inhabited α] (src : List α) (M : List Int),
        extract_matched_pages src M
          = extract_matched_pages src
              (M.filter fun p => decide (1 ≤ p ∧ p ≤ (src.length : Int))) := by
  simpa using
    c1_amended [⟨some (JVal.int 999), some "USA", some "Passport"⟩] 1
      (by decide)

/-! ## C2 -/

/-- **C2, counterexample.**  The claim says that a malformed entry (missing
or non-numeric `page`) is dropped alone, the rest of the batch being
retained.  In the code the whole `for m in matches` loop sits inside the
one `try` of `analyze_batch`: the middle entry below is missing its `page`
key, its `KeyError` aborts the loop, and the `except` clause returns `[]` —
the two well-formed entries (which alone would have produced
`[2, 5]`) are lost with it. -/
theorem c2_counterexample :
    analyze_batch (Except.ok
      [⟨some (JVal.int 2), some "USA", some "Passport"⟩,
       ⟨none, some "USA", some "Passport"⟩,
       ⟨some (JVal.int 5), some "Canada", some "Drivers License"⟩]) 1 = []
    ∧ analyze_batch (Except.ok
      [⟨some (JVal.int 2), some "USA", some "Passport"⟩,
       ⟨some (JVal.int 5), some "Canada", some "Drivers License"⟩]) 1
        = [JVal.int 2, JVal.int 5] := by
  exact ⟨rfl, rfl⟩

/-- **C2, amended.**  An entry whose `page` field is missing aborts the whole
batch: `analyze_batch` returns `[]`, so every well-formed entry of that
batch is lost with the malformed one (whole-batch loss, not entry-level
isolation).  An entry whose `page` field is present but non-numeric is not
dropped either: its value is passed through unchanged to the batch
output. -/
theorem c2_amended (ms : List MatchEntry) (s : Int) (m : MatchEntry)
    (hm : m ∈ ms) (hpage : m.page = none) :
    analyze_batch (Except.ok ms) s = []
    ∧ ∀ (v : JVal) (c d : String) (t : Int),
        analyze_batch (Except.ok [⟨some v, some c, some d⟩]) t = [v] := by
  constructor
  · obtain ⟨e, he⟩ := collectPages_page_missing ms m hm hpage
    unfold analyze_batch
    rw [show (Except.ok ms >>= collectPages) = collectPages ms from rfl, he]
  · intro v c d t
    rfl

/-- **C2, witness** for `c2_amended` on the mixed batch of
`c2_counterexample`. -/
theorem c2_witness :
    analyze_batch (Except.ok
      [⟨some (JVal.int 2), some "USA", some "Passport"⟩,
       ⟨none, some "USA", some "Passport"⟩,
       ⟨some (JVal.int 5), some "Canada", some "Drivers License"⟩]) 1 = []
    ∧ ∀ (v : JVal) (c d : String) (t : Int),
        analyze_batch (Except.ok [⟨some v, some c, some d⟩]) t = [v] :=
  c2_amended
    [⟨some (JVal.int 2), some "USA", some "Passport"⟩,
     ⟨none, some "USA", some "Passport"⟩,
     ⟨some (JVal.int 5), some "Canada", some "Drivers License"⟩] 1
    ⟨none, some "USA", some "Passport"⟩ (by decide) rfl

/-! ## C3 -/

/-- **C3, counterexample.**  The claim says `finalize` itself clamps the
result to `[1, N]`.  Over a 10-page document (N = 10), a collected verdict
multiset `[999]` finalizes to `[999]`: the out-of-range value 999 is
returned by the finalize step untouched — `sorted(list(set(...)))` contains
no clamp. -/
theorem c3_counterexample :
    finalize [999] = [999] ∧ ¬ (1 ≤ (999 : Int) ∧ (999 : Int) ≤ 10) := by
  exact ⟨by decide, by decide⟩

/-- **C3, amended.**  `finalize` returns a duplicate-free, strictly
ascending list containing exactly the distinct collected verdict values —
with no `[1, N]` clamp.  In `extract_na_docs_from_pdf.py` the clamp to
`[1, N]` is applied only afterwards, by the bounds test of the extraction
loop, which ignores exactly the out-of-range entries of `final_pages`. -/
theorem c3_amended (l : List Int) :
    List.Sorted (· < ·) (finalize l)
    ∧ (finalize l).Nodup
    ∧ (∀ x, x ∈ finalize l ↔ x ∈ l)
    ∧ ∀ (α : Type) [Inhabited α] (src : List α) (M : List Int),
        extract_matched_pages src M
          = extract_matched_pages src
              (M.filter fun p => decide (1 ≤ p ∧ p ≤ (src.length : Int))) :=
  ⟨finalize_sorted_lt l, finalize_nodup l, fun _ => mem_finalize,
   fun _ _ src M => extract_matched_pages_filter src M⟩

/-! ## C5 -/

/-- **C5.**  The final MatchSet depends only on the set of page numbers
contributed across all batches: permuting the order of the per-batch
verdict lists leaves `runPipeline`'s output unchanged, and duplicating
every batch's verdicts (aggregating the whole multiset twice) yields the
same MatchSet as aggregating it once. -/
theorem c5_pipeline_order_independent (bs bs' : List (List Int))
    (hperm : bs.Perm bs') :
    runPipeline bs = runPipeline bs'
    ∧ ∀ cs : List (List Int), runPipeline (cs ++ cs) = runPipeline cs := by
  constructor
  · unfold runPipeline
    exact finalize_eq_of_mem_iff fun x => hperm.flatten.mem_iff
  · intro cs
    unfold runPipeline
    apply finalize_eq_of_mem_iff
    intro x
    simp [List.mem_flatten]

/-- **C5, witness**: batches `[[1, 4], [2]]` permuted to `[[2], [1, 4]]`. -/
theorem c5_witness :
    runPipeline [[1, 4], [2]] = runPipeline [[2], [1, 4]]
    ∧ ∀ cs : List (List Int), runPipeline (cs ++ cs) = runPipeline cs :=
  c5_pipeline_order_independent [[1, 4], [2]] [[2], [1, 4]]
    (List.Perm.swap _ _ _)

/-! ## C6 -/

/-- **C6.**  A batch whose backend call or result handling raises
contributes `[]` (the `except` clause of `analyze_batch`); the exception
never escapes the batch loop (`runBatches` is a total function of the raw
outcomes); the run's result equals the one where every failed batch is
replaced by an empty success; and every page of every successful batch
still reaches the final MatchSet. -/
theorem c6_partial_failure (results : List (Except String (List Int)))
    (e : String) (hfail : Except.error e ∈ results) :
    batchContribution (Except.error e) = []
    ∧ runBatches results
        = runBatches (results.map fun r => match r with
            | Except.error _ => Except.ok []
            | Except.ok l => Except.ok l)
    ∧ ∀ l, Except.ok l ∈ results → ∀ p, p ∈ l → p ∈ runBatches results := by
  refine ⟨rfl, ?_, ?_⟩
  · unfold runBatches
    apply finalize_eq_of_mem_iff
    intro x
    rw [List.map_map]
    congr! 2
    apply List.map_congr_left
    intro r _
    cases r <;> rfl
  · intro l hl p hp
    unfold runBatches
    rw [mem_finalize, List.mem_flatten]
    exact ⟨l, List.mem_map.mpr ⟨Except.ok l, hl, rfl⟩, hp⟩

/-- **C6, witness**: three batches where the middle one failed; the final
MatchSet keeps the valid matches 1 and 7 of the succeeding batches. -/
theorem c6_witness :
    batchContribution (Except.error "APIError") = []
    ∧ runBatches [Except.ok [1], Except.error "APIError", Except.ok [7]]
        = runBatches ([Except.ok [1], Except.error "APIError",
            Except.ok [7]].map fun r => match r with
              | Except.error _ => Except.ok []
              | Except.ok l => Except.ok l)
    ∧ ∀ l, Except.ok l ∈ [Except.ok [1], Except.error "APIError",
        Except.ok [7]] → ∀ p, p ∈ l →
          p ∈ runBatches [Except.ok [1], Except.error "APIError",
            Except.ok [7]] :=
  c6_partial_failure [Except.ok [1], Except.error "APIError", Except.ok [7]]
    "APIError" (by simp)

/-! ## C7 -/

/-- **C7.**  A run whose final MatchSet is empty takes the `else` branch of
`main`: no output document is produced and the outcome is the distinct
`noMatches` report, never a written file. -/
theorem c7_empty_result (α : Type) [Inhabited α] (src : List α)
    (final_pages : List Int) (h : final_pages = []) :
    writeOutput src final_pages = RunOutcome.noMatches
    ∧ ∀ out : List α, writeOutput src final_pages ≠ RunOutcome.wrote out := by
  subst h
  exact ⟨rfl, fun out hcontra => by simp [writeOutput] at hcontra⟩

/-- **C7, witness** on a concrete 3-page document with no matches. -/
theorem c7_witness :
    writeOutput [10, 20, 30] ([] : List Int) = RunOutcome.noMatches
    ∧ ∀ out : List Nat,
        writeOutput [10, 20, 30] ([] : List Int) ≠ RunOutcome.wrote out :=
  c7_empty_result Nat [10, 20, 30] [] rfl

/-! ## C8 -/

/-- When every page number of `final_pages` is within bounds, the checked
write loop copies exactly the addressed source pages, in list order. -/
theorem extract_matched_pages_all_in_range {α : Type _} [Inhabited α]
    (src : List α) (M : List Int)
    (h : ∀ p ∈ M, 1 ≤ p ∧ p ≤ (src.length : Int)) :
    extract_matched_pages src M
      = M.map (fun p => src.getD (p - 1).toNat default) := by
  induction M with
  | nil => rfl
  | cons p ps ih =>
    rw [extract_matched_pages_cons, if_pos (h p (List.mem_cons_self p ps)),
      List.map_cons, ih fun q hq => h q (List.mem_cons_of_mem _ hq)]

/-- **C8.**  For a non-empty MatchSet `finalize collected` whose elements
all lie in `[1, N]` (`N = src.length`), the extraction loop of
`extract_na_docs_from_pdf.py` produces one output page per MatchSet
element, output page `i` being the source page numbered by the `i`-th
element of the MatchSet; since the MatchSet is strictly ascending, that
element is the `i`-th smallest matched page number. -/
theorem c8_extract_round_trip (α : Type) [Inhabited α] (src : List α)
    (collected : List Int) (hne : finalize collected ≠ [])
    (hrange : ∀ p ∈ finalize collected, 1 ≤ p ∧ p ≤ (src.length : Int)) :
    extract_matched_pages src (finalize collected)
        = (finalize collected).map (fun p => src.getD (p - 1).toNat default)
    ∧ (extract_matched_pages src (finalize collected)).length
        = (finalize collected).length
    ∧ List.Sorted (· < ·) (finalize collected) := by
  have hmap := extract_matched_pages_all_in_range src (finalize collected)
    hrange
  exact ⟨hmap, by rw [hmap, List.length_map], finalize_sorted_lt collected⟩

/-- **C8, witness**: the spec's round-trip example — MatchSet `{3, 7, 9}`
on a 10-page source yields the three output pages `33, 77, 99`, i.e. source
pages 3, 7, 9 in that order (`finalize [9, 3, 7] = [3, 7, 9]`). -/
theorem c8_witness :
    extract_matched_pages
        [11, 22, 33, 44, 55, 66, 77, 88, 99, 110] (finalize [9, 3, 7])
        = (finalize [9, 3, 7]).map
            (fun p => List.getD [11, 22, 33, 44, 55, 66, 77, 88, 99, 110]
              (p - 1).toNat default)
    ∧ (extract_matched_pages
        [11, 22, 33, 44, 55, 66, 77, 88, 99, 110] (finalize [9, 3, 7])).length
        = (finalize [9, 3, 7]).length
    ∧ List.Sorted (· < ·) (finalize [9, 3, 7]) :=
  c8_extract_round_trip Nat [11, 22, 33, 44, 55, 66, 77, 88, 99, 110]
    [9, 3, 7] (by decide) (by decide)

/-! ## C9 -/

/-- **C9, counterexample.**  The claim says a zero or negative batch size
makes the Batcher fail with a distinguished `ConfigurationError`.  In the
code there is no such error type: a negative batch size silently produces
zero batches (no failure at all), and a zero batch size raises Python's
unrelated `ValueError` from `range()`. -/
theorem c9_counterexample :
    makeBatches (List.range 5) (-1) = Except.ok []
    ∧ makeBatches (List.range 5) 0
        = Except.error "ValueError: range() arg 3 must not be zero" :=
  ⟨rfl, rfl⟩

/-- **C9, amended.**  No `ConfigurationError` outcome exists in the code:
the batch size is the hard-coded positive constant `BATCH_SIZE = 10`.
Were the batch size 0, the page loop's `range()` would raise `ValueError`;
were it negative, the loop would produce no batches at all (and in
particular would not loop forever). -/
theorem c9_no_configuration_error (α : Type) (all_images : List α)
    (B : Int) (hneg : B < 0) :
    BATCH_SIZE = 10 ∧ (0 : Int) < BATCH_SIZE
    ∧ makeBatches all_images 0
        = Except.error "ValueError: range() arg 3 must not be zero"
    ∧ makeBatches all_images B = Except.ok [] := by
  refine ⟨rfl, by decide, rfl, ?_⟩
  unfold makeBatches pythonRange
  rw [if_neg (by omega : ¬ B = 0), if_neg (by simp [hneg, not_lt]; omega)]
  have hlen : ((0 - (all_images.length : Int) + -B - 1) / -B).toNat = 0 := by
    have hB : (0 : Int) < -B := by omega
    have hlt : (0 - (all_images.length : Int) + -B - 1) < 1 * -B := by
      have := Int.ofNat_nonneg all_images.length
      omega
    have hdiv := (Int.ediv_lt_iff_lt_mul hB).mpr hlt
    omega
  rw [hlen]
  rfl

/-- **C9, witness** for `c9_no_configuration_error` at batch size `-1` on a
5-page document. -/
theorem c9_witness :
    BATCH_SIZE = 10 ∧ (0 : Int) < BATCH_SIZE
    ∧ makeBatches (List.range 5) 0
        = Except.error "ValueError: range() arg 3 must not be zero"
    ∧ makeBatches (List.range 5) (-1) = Except.ok [] :=
  c9_no_configuration_error Nat (List.range 5) (-1) (by decide)

/-! ## C10 -/

/-- **C10.**  In the tesseract and deepseek variants the extraction loop
performs no bounds check: a final page number 0 makes the loop subscript
`reader.pages[0 - 1]`, i.e. Python index `-1`, which is the LAST source
page — page 0 is silently renumbered to page N and its page is appended to
the output instead of being discarded or rejected. -/
theorem c10_page_zero_takes_last_page (α : Type) (src : List α)
    (h : src ≠ []) (ps : List Int) :
    pyGetItem src ((0 : Int) - 1) = Except.ok (src.getLast h)
    ∧ tesseract_extract src (0 :: ps)
        = (tesseract_extract src ps).map
            (fun out => src.getLast h :: out) := by
  have hlen : 0 < src.length := List.length_pos.mpr h
  have hidx : (((src.length : Int)) + (0 - 1)).toNat = src.length - 1 := by
    omega
  have hsome : src.get? (src.length - 1) = some (src.getLast h) := by
    rw [List.getLast_eq_get]
    exact List.get?_eq_get (by omega)
  have hget : pyGetItem src ((0 : Int) - 1) = Except.ok (src.getLast h) := by
    unfold pyGetItem
    rw [if_neg (by omega : ¬ (0 : Int) ≤ 0 - 1), hidx, hsome]
    exact if_pos (by omega)
  refine ⟨hget, ?_⟩
  simp only [tesseract_extract, hget, Bind.bind, Except.bind]
  cases tesseract_extract src ps <;> rfl

/-- **C10, witness**: on a 3-page source, the final page list `[0]` makes
the unchecked loop emit the last source page. -/
theorem c10_witness :
    pyGetItem [10, 20, 30] ((0 : Int) - 1)
        = Except.ok (([10, 20, 30] : List Nat).getLast (by decide))
    ∧ tesseract_extract [10, 20, 30] (0 :: ([] : List Int))
        = (tesseract_extract [10, 20, 30] ([] : List Int)).map
            (fun out => ([10, 20, 30] : List Nat).getLast (by decide) :: out) :=
  c10_page_zero_takes_last_page Nat [10, 20, 30] (by decide) []

/-! ## C4 -/

/-- With a positive batch size `B`, `makeBatches` succeeds and yields, for
each `k < ceil(N/B)`, the pair of start page `k*B + 1` and the slice
`all_images[k*B : k*B + B]`. -/
theorem makeBatches_pos_eq {α : Type _} (all : List α) (B : Nat)
    (hB : 0 < B) :
    makeBatches all (B : Int) = Except.ok
      ((List.range ((all.length + B - 1) / B)).map
        (fun k => (((k * B : Nat) : Int) + 1, (all.drop (k * B)).take B))) := by
  unfold makeBatches pythonRange
  rw [if_neg (Int.natCast_pos.mpr hB).ne', if_pos (Int.natCast_pos.mpr hB)]
  have hlen : (((all.length : Int) - 0 + (B : Int) - 1) / (B : Int)).toNat
      = (all.length + B - 1) / B := by
    have hcast : ((all.length : Int) - 0 + (B : Int) - 1)
        = ((all.length + B - 1 : Nat) : Int) := by
      omega
    rw [hcast, ← Int.ofNat_ediv, Int.toNat_natCast]
  simp only [Except.map]
  congr 1
  rw [hlen, List.map_map]
  refine List.map_congr_left ?_
  intro k hk
  simp only [Function.comp_apply]
  have h1 : (0 : Int) + (B : Int) * (k : Int) = ((k * B : Nat) : Int) := by
    push_cast
    ring
  rw [h1, Int.toNat_natCast, Int.toNat_natCast]

/-- The consecutive `B`-sized slices of a list of length at most `K * B`
concatenate back to the list. -/
theorem flatten_slices {α : Type _} (B : Nat) :
    ∀ (K : Nat) (l : List α), l.length ≤ K * B →
      ((List.range K).map (fun k => (l.drop (k * B)).take B)).flatten = l := by
  intro K
  induction K with
  | zero =>
    intro l hl
    have : l = [] := List.eq_nil_of_length_eq_zero (by omega)
    simp [this]
  | succ K ih =>
    intro l hl
    rw [List.range_succ_eq_map, List.map_cons, List.flatten_cons,
      List.map_map]
    have hstep : ∀ k ∈ List.range K,
        ((fun k => (l.drop (k * B)).take B) ∘ Nat.succ) k
          = ((l.drop B).drop (k * B)).take B := by
      intro k _
      simp only [Function.comp_apply]
      rw [List.drop_drop]
      congr 2
      simp only [Nat.succ_eq_add_one]
      ring
    rw [List.map_congr_left hstep]
    have hexp : (K + 1) * B = K * B + B := by ring
    rw [ih (l.drop B) (by rw [List.length_drop]; omega)]
    simp only [Nat.zero_mul, List.drop_zero]
    exact List.take_append_drop B l

/-- `ceil(N/B) * B` covers `N` when `B > 0`. -/
theorem le_ceil_mul (N B : Nat) (hB : 0 < B) : N ≤ (N + B - 1) / B * B := by
  have h1 := Nat.div_add_mod (N + B - 1) B
  have h2 : (N + B - 1) % B < B := Nat.mod_lt _ hB
  have h3 : B * ((N + B - 1) / B) = (N + B - 1) / B * B := by ring
  omega

/-- **C4.**  For every page list and batch size `B > 0`, the batch loop of
`main` produces exactly `ceil(N/B)` batches, in order: batch `k` (0-based)
starts at absolute page `k*B + 1`; batch `k` holds `min B (N - k*B)` pages,
so every batch except possibly the last holds exactly `B`; the batches'
page contents concatenate to the whole document; and every page number in
`[1, N]` lies in the page range of exactly one batch (no gaps, no
overlaps). -/
theorem c4_batcher (α : Type) (all_images : List α) (B : Nat) (hB : 0 < B) :
    ∃ bs : List (Int × List α),
      makeBatches all_images (B : Int) = Except.ok bs
      ∧ bs.length = (all_images.length + B - 1) / B
      ∧ (∀ k (hk : k < bs.length), (bs.get ⟨k, hk⟩).1 = (k : Int) * B + 1)
      ∧ (∀ k (hk : k < bs.length),
          (bs.get ⟨k, hk⟩).2.length = min B (all_images.length - k * B))
      ∧ (∀ k (hk : k < bs.length), k + 1 < bs.length →
          (bs.get ⟨k, hk⟩).2.length = B)
      ∧ (bs.map Prod.snd).flatten = all_images
      ∧ (∀ p : Nat, 1 ≤ p → p ≤ all_images.length →
          ∃! k : Nat, ∃ pb : Int × List α, bs[k]? = some pb
            ∧ pb.1 ≤ (p : Int) ∧ (p : Int) < pb.1 + pb.2.length) := by
  refine ⟨(List.range ((all_images.length + B - 1) / B)).map
      (fun k => (((k * B : Nat) : Int) + 1, (all_images.drop (k * B)).take B)),
    makeBatches_pos_eq all_images B hB, by simp, ?_, ?_, ?_, ?_, ?_⟩
  · intro k hk
    simp only [List.get_eq_getElem, List.getElem_map, List.getElem_range]
    push_cast
    ring
  · intro k hk
    simp only [List.get_eq_getElem, List.getElem_map, List.getElem_range,
      List.length_take, List.length_drop]
  · intro k hk hk1
    simp only [List.length_map, List.length_range] at hk1
    simp only [List.get_eq_getElem, List.getElem_map, List.getElem_range,
      List.length_take, List.length_drop]
    have hub : (all_images.length + B - 1) / B * B
        ≤ all_images.length + B - 1 := Nat.div_mul_le_self _ _
    have h2 : (k + 2) * B ≤ (all_images.length + B - 1) / B * B :=
      Nat.mul_le_mul_right B (by omega)
    have h3 : (k + 2) * B = k * B + 2 * B := by ring
    omega
  · rw [List.map_map]
    have hcomp : Prod.snd ∘ (fun k : Nat =>
        (((k * B : Nat) : Int) + 1, (all_images.drop (k * B)).take B))
        = fun k : Nat => (all_images.drop (k * B)).take B := rfl
    rw [hcomp]
    exact flatten_slices B _ all_images (le_ceil_mul _ B hB)
  · intro p hp1 hpN
    have hq1 : (p - 1) / B * B ≤ p - 1 := Nat.div_mul_le_self _ _
    have hq2 := Nat.div_add_mod (p - 1) B
    have hq3 : (p - 1) % B < B := Nat.mod_lt _ hB
    have hq4 : B * ((p - 1) / B) = (p - 1) / B * B := by ring
    have hceil := le_ceil_mul all_images.length B hB
    have hqlt : (p - 1) / B < (all_images.length + B - 1) / B := by
      apply (Nat.div_lt_iff_lt_mul hB).mpr
      omega
    refine ⟨(p - 1) / B, ⟨((((p - 1) / B * B : Nat) : Int) + 1,
        (all_images.drop ((p - 1) / B * B)).take B), ?_, ?_, ?_⟩, ?_⟩
    · rw [List.getElem?_map, List.getElem?_range hqlt]
      rfl
    · omega
    · simp only [List.length_take, List.length_drop]
      omega
    · intro k' hk'
      obtain ⟨pb, hpb, hle, hlt⟩ := hk'
      rw [List.getElem?_map] at hpb
      by_cases hk'K : k' < (all_images.length + B - 1) / B
      · rw [List.getElem?_range hk'K] at hpb
        rw [Option.map_some'] at hpb
        injection hpb with hpb
        subst hpb
        simp only [List.length_take, List.length_drop] at hle hlt
        have h5 : k' * B ≤ p - 1 := by omega
        have h6 : p - 1 < (k' + 1) * B := by
          have hx : (k' + 1) * B = k' * B + B := by ring
          omega
        exact (Nat.div_eq_of_lt_le h5 h6).symm
      · rw [List.getElem?_eq_none (by simpa using hk'K)] at hpb
        simp at hpb

/-- **C4, witness** for `c4_batcher` on a 25-page document with batch size
10: three batches, starting at pages 1, 11 and 21, of 10, 10 and 5
pages. -/
theorem c4_witness :
    ∃ bs : List (Int × List Nat),
      makeBatches (List.range 25) ((10 : Nat) : Int) = Except.ok bs
      ∧ bs.length = ((List.range 25).length + 10 - 1) / 10
      ∧ (∀ k (hk : k < bs.length), (bs.get ⟨k, hk⟩).1 = (k : Int) * 10 + 1)
      ∧ (∀ k (hk : k < bs.length),
          (bs.get ⟨k, hk⟩).2.length
            = min 10 ((List.range 25).length - k * 10))
      ∧ (∀ k (hk : k < bs.length), k + 1 < bs.length →
          (bs.get ⟨k, hk⟩).2.length = 10)
      ∧ (bs.map Prod.snd).flatten = List.range 25
      ∧ (∀ p : Nat, 1 ≤ p → p ≤ (List.range 25).length →
          ∃! k : Nat, ∃ pb : Int × List Nat, bs[k]? = some pb
            ∧ pb.1 ≤ (p : Int) ∧ (p : Int) < pb.1 + pb.2.length) :=
  c4_batcher Nat (List.range 25) 10 (by decide)
